import Mathlib

/-!
Verification of the TUI dashboard core of this repository.

The embedded code lives in:
  * `src/core/framework/tui/widgets/graph_view.py` — `GraphOverview.__init__`,
    `GraphOverview.update_active_node`, `GraphOverview.update_execution`;
  * `src/core/framework/tui/app.py` — `AdenTUI._handle_event_sync`,
    `AdenTUI._setup_logging_queue`, `AdenTUI._poll_logs`, `AdenTUI.on_unmount`.

Machine strings are Lean `String`; Python dictionaries of string keys/values
are association lists; Python truthiness of an optional string (`if node_id:`)
is "present and non-empty".
-/

/-- Python `str.startswith` on character lists: `charsLeading s pre` is true
iff `pre` is a leading run of `s`. -/
def charsLeading : List Char → List Char → Bool
  | _, [] => true
  | [], _ :: _ => false
  | c :: cs, d :: ds => c == d && charsLeading cs ds

/-- Python `s.startswith(pre)` for strings. -/
def strStartsWith (s pre : String) : Bool :=
  charsLeading s.data pre.data

/-- Python `dict.get(k)` over an association list: first binding of `k`, if any. -/
def dictGet (d : List (String × String)) (k : String) : Option String :=
  match d with
  | [] => none
  | (k', v) :: rest => if k' = k then some v else dictGet rest k

/-- Python truthiness of an optional string: `None` and `""` are falsy. -/
def truthy : Option String → Bool
  | none => false
  | some s => s != ""

/-- Modelled from the spec: the `EventType` enum lives in
`framework.runtime.event_bus`, which is not under `src/`.  Its recognized
members follow the spec's `RuntimeEvent` variants; `unknown v` stands for any
event type outside the recognized set whose `.value` string is `v`.  The
comparisons in `update_execution` are enum-identity comparisons, so an
`unknown` type never matches a recognized branch even if its value string
coincides. -/
inductive EventTy where
  | node_started
  | node_completed
  | execution_completed
  | execution_failed
  | unknown (v : String)
deriving DecidableEq

/-- Modelled from the spec: the `.value` string of an `EventType` member,
following the `"node_"`/`"execution_"` prefix convention that
`AdenTUI._handle_event_sync` checks with `startswith`. -/
def EventTy.value : EventTy → String
  | .node_started => "node_started"
  | .node_completed => "node_completed"
  | .execution_completed => "execution_completed"
  | .execution_failed => "execution_failed"
  | .unknown v => v

/-- The `type` attribute of an incoming event object, as dynamically probed by
`_handle_event_sync`: missing entirely (`hasattr(event, "type")` false), present
but without a `value` attribute, or a typed enum member. -/
inductive EvField where
  | absent
  | novalue
  | typed (t : EventTy)
deriving DecidableEq

/-- A runtime event as consumed by the dashboard: its dynamically-probed
`type` attribute and its `data` dictionary. -/
structure Event where
  type : EvField
  data : List (String × String)
deriving DecidableEq

/-- The dashboard's execution-display state, from `GraphOverview`:
`active_node` and `execution_path` are the fields set in
`GraphOverview.__init__`; `terminal_status` records the terminal line the
widget writes to its display on `EXECUTION_COMPLETED` (`some none`, the "ok"
status) or `EXECUTION_FAILED` (`some (some err)`), `none` while no terminal
line has been written. -/
structure DashState where
  active_node : Option String
  execution_path : List String
  terminal_status : Option (Option String)
deriving DecidableEq

/-- `GraphOverview.__init__`: `active_node = None`, `execution_path = []`,
no terminal line displayed. -/
def initState : DashState :=
  { active_node := none, execution_path := [], terminal_status := none }

/-- `GraphOverview.update_active_node` (graph_view.py lines 103–108):
sets `active_node` and appends the id to `execution_path` only when the id is
not already anywhere in the path (`if node_id not in self.execution_path`). -/
def update_active_node (s : DashState) (node_id : String) : DashState :=
  { s with
    active_node := some node_id,
    execution_path :=
      if node_id ∈ s.execution_path then s.execution_path
      else s.execution_path ++ [node_id] }

/-- `GraphOverview.update_execution` (graph_view.py lines 110–134), for an
event whose `type` attribute is present (the caller `_handle_event_sync`
guarantees this).  `if node_id:` is Python truthiness, i.e. the guard fails
for a missing or empty id. -/
def update_execution (s : DashState) (t : EventTy) (data : List (String × String)) :
    DashState :=
  match t with
  | .node_started =>
      match dictGet data "node_id" with
      | some nid => if nid = "" then s else update_active_node s nid
      | none => s
  | .node_completed =>
      match dictGet data "node_id" with
      | some nid =>
          if nid = "" then s
          else if s.active_node = some nid then { s with active_node := none } else s
      | none => s
  | .execution_completed =>
      { s with active_node := none, terminal_status := some none }
  | .execution_failed =>
      { s with
        active_node := none,
        terminal_status := some (some ((dictGet data "error").getD "Unknown error")) }
  | .unknown _ => s

/-- `AdenTUI._handle_event_sync` (app.py lines 280–302) during a ready
session: forwards the event to `update_execution` only when the event has a
`type` attribute, that type has a `value` attribute, and the value string
starts with `"execution_"` or `"node_"`; otherwise the state is untouched. -/
def handleEventSync (s : DashState) (e : Event) : DashState :=
  match e.type with
  | .absent => s
  | .novalue => s
  | .typed t =>
      if strStartsWith t.value "execution_" || strStartsWith t.value "node_" then
        update_execution s t e.data
      else s

/-- Folding a whole event sequence into the dashboard state, starting from the
freshly-constructed widget. -/
def runEvents (es : List Event) : DashState :=
  es.foldl handleEventSync initState

/-- An abstract `NodeStarted`/`NodeCompleted` event, for the event-sequence
properties. -/
inductive SEv where
  | started (n : String)
  | completed (n : String)
deriving DecidableEq

/-- The node id carried by a `NodeStarted`/`NodeCompleted` event. -/
def SEv.nodeId : SEv → String
  | .started n => n
  | .completed n => n

/-- One `NodeStarted`/`NodeCompleted` event delivered to
`update_execution` with its id in the event's data dictionary. -/
def stepSEv (s : DashState) (e : SEv) : DashState :=
  match e with
  | .started n => update_execution s .node_started [("node_id", n)]
  | .completed n => update_execution s .node_completed [("node_id", n)]

/-- Folding a `NodeStarted`/`NodeCompleted` sequence into the dashboard state
from the freshly-constructed widget. -/
def applySeq (l : List SEv) : DashState :=
  l.foldl stepSEv initState

/-- The claim's predicted active node, read literally: the ids of the
`NodeStarted` events that are not matched by any later `NodeCompleted` with
the same id, in order of their start. -/
def c1Unmatched : List SEv → List String
  | [] => []
  | .started n :: rest =>
      (if rest.contains (SEv.completed n) then [] else [n]) ++ c1Unmatched rest
  | .completed _ :: rest => c1Unmatched rest

/-- The claim's predicted active node after a sequence: the latest unmatched
`NodeStarted`, or `none` when every started node has been matched. -/
def c1ClaimActive (l : List SEv) : Option String :=
  (c1Unmatched l).getLast?

/-- Scanning the REVERSED event sequence: `seen` holds the ids of the
completions already passed (i.e. the completions occurring after the current
position in the original order).  The first `started n` found is the last
start of the sequence; it is the active node iff no completion of `n`
followed it. -/
def lastActiveRevAux : List String → List SEv → Option String
  | _, [] => none
  | seen, .started n :: _ => if n ∈ seen then none else some n
  | seen, .completed m :: rest => lastActiveRevAux (m :: seen) rest

/-- The amended prediction for `active_node`: the id of the last
`NodeStarted` of the sequence if no `NodeCompleted` for that same id occurs
after it, otherwise (and for sequences with no `NodeStarted`) `none`. -/
def c1AmendedActive (l : List SEv) : Option String :=
  lastActiveRevAux [] l.reverse

/-- Masks an active-node value with a set of completions known to occur later. -/
def maskSeen (a : Option String) (seen : List String) : Option String :=
  match a with
  | none => none
  | some n => if n ∈ seen then none else some n

/-- An event the pipeline treats as unrecognized: no `type` attribute, a
`type` without `value`, a type outside the recognized enum members, or a
`NodeStarted`/`NodeCompleted` whose data carries no (non-empty) node id. -/
def isUnrecognized (e : Event) : Bool :=
  match e.type with
  | .absent => true
  | .novalue => true
  | .typed .execution_completed => false
  | .typed .execution_failed => false
  | .typed (.unknown _) => true
  | .typed .node_started => !truthy (dictGet e.data "node_id")
  | .typed .node_completed => !truthy (dictGet e.data "node_id")

/-- A log record as seen by the relay: logger name, numeric level, message
(`logging.LogRecord` fields used by the code). -/
structure LogRecord where
  name : String
  levelno : Nat
  message : String
deriving DecidableEq

/-- One producer-side push through the `QueueHandler` installed by
`AdenTUI._setup_logging_queue`: the handler's level is `INFO` (numeric 20),
so records below it are never enqueued; `queue.Queue()` is created with no
`maxsize`, so an enqueued record is always appended — there is no bound and
no drop-oldest. -/
def queuePush (q : List LogRecord) (r : LogRecord) : List LogRecord :=
  if 20 ≤ r.levelno then q ++ [r] else q

/-- The queue contents after pushing a whole record sequence into the fresh
(empty) queue. -/
def pushAll (rs : List LogRecord) : List LogRecord :=
  rs.foldl queuePush []

/-- The noisy/internal logger-name prefixes filtered by `AdenTUI._poll_logs`:
`record.name.startswith(("textual", "LiteLLM", "litellm"))`. -/
def noisy (r : LogRecord) : Bool :=
  strStartsWith r.name "textual" || strStartsWith r.name "LiteLLM" ||
    strStartsWith r.name "litellm"

/-- `AdenTUI._poll_logs` (app.py lines 229–244): drains the queue with
`get_nowait` until empty (FIFO), skips records whose logger name matches the
noisy prefixes, and forwards the rest to the log pane; the returned list is
the sequence of surviving records, in drain order. -/
def drainAll (q : List LogRecord) : List LogRecord :=
  q.filter (fun r => !noisy r)

/-- The claim's relay contract, read literally: some configured bound `B`
exists such that whenever more than `B` records are pushed, `drain_all`
returns at most `B` records, namely the most recent `B` pushed. -/
def c7BoundedDropOldestClaim : Prop :=
  ∃ B : Nat, ∀ rs : List LogRecord, B < rs.length →
    (drainAll (pushAll rs)).length ≤ B ∧
    drainAll (pushAll rs) = (pushAll rs).drop ((pushAll rs).length - B)

/-- A process-wide logging sink: either some pre-existing handler (indexed)
or the dashboard's own queue handler. -/
inductive Handler where
  | stream (id : Nat)
  | queue_handler
deriving DecidableEq

/-- `AdenTUI._setup_logging_queue` (app.py lines 204–213) acting on the root
logger's handler list: it removes ALL existing handlers and adds only the
queue handler — nothing about the prior configuration is captured. -/
def setupLoggingQueue (_handlers : List Handler) : List Handler :=
  [Handler.queue_handler]

/-- `AdenTUI.on_unmount` (app.py lines 381–388) acting on the root logger's
handler list: it removes the queue handler (first occurrence) and nothing
else — no prior handler is reinstalled. -/
def onUnmount (handlers : List Handler) : List Handler :=
  handlers.erase Handler.queue_handler

/-! Theorems. -/

/-- C2 counterexample: from the state reached by starting `n1` then `n2`
(path `["n1","n2"]`, last entry `"n2" ≠ "n1"`), a further `NodeStarted{"n1"}`
does NOT append `"n1"`: `update_active_node` deduplicates against the whole
path, not just the last entry, so the claimed append-iff-last-differs rule
fails here. -/
theorem c2_counterexample :
    (⟨some "n2", ["n1", "n2"], none⟩ : DashState).execution_path ≠ [] ∧
    (⟨some "n2", ["n1", "n2"], none⟩ : DashState).execution_path.getLast? ≠ some "n1" ∧
    (update_execution ⟨some "n2", ["n1", "n2"], none⟩ .node_started
        [("node_id", "n1")]).execution_path
      ≠ (⟨some "n2", ["n1", "n2"], none⟩ : DashState).execution_path ++ ["n1"] := by
  decide

/-- C2 (amended): `NodeStarted{n}` with a non-empty id always sets
`active_node` to `n`, and appends `n` to `execution_path` iff `n` is not
already anywhere in the path; in particular re-starting the node that is the
last path entry leaves the path unchanged. -/
theorem c2_node_started_amended (s : DashState) (n : String) (h : n ≠ "") :
    update_execution s .node_started [("node_id", n)] =
      { s with
        active_node := some n,
        execution_path :=
          if n ∈ s.execution_path then s.execution_path
          else s.execution_path ++ [n] } := by
  simp [update_execution, dictGet, update_active_node, h]

/-- Witness for `c2_node_started_amended` at `s = initState`, `n = "n1"`. -/
theorem c2_node_started_amended_witness :
    ("n1" : String) ≠ "" ∧
    update_execution initState .node_started [("node_id", "n1")] =
      { initState with
        active_node := some "n1",
        execution_path :=
          if "n1" ∈ initState.execution_path then initState.execution_path
          else initState.execution_path ++ ["n1"] } :=
  ⟨by decide, c2_node_started_amended initState "n1" (by decide)⟩

/-- C3: `ExecutionCompleted{}` clears `active_node` and sets the terminal
status to ok; `ExecutionFailed{error}` clears `active_node` and sets the
terminal status to failed(error); and the concrete scenario
`ExecutionFailed{"boom"}` from the initial state yields terminal status
failed("boom"), no active node, and an empty path. -/
theorem c3_terminal_events (s : DashState) (err : String) :
    update_execution s .execution_completed [] =
      { s with active_node := none, terminal_status := some none } ∧
    update_execution s .execution_failed [("error", err)] =
      { s with active_node := none, terminal_status := some (some err) } ∧
    update_execution initState .execution_failed [("error", "boom")] =
      { active_node := none, execution_path := [], terminal_status := some (some "boom") } := by
  refine ⟨rfl, ?_, by decide⟩
  simp [update_execution, dictGet]

/-- C5: `NodeCompleted{n}` with a non-empty id clears `active_node` exactly
when `active_node = n`, is otherwise a no-op, and never touches
`execution_path` or `terminal_status`. -/
theorem c5_node_completed (s : DashState) (n : String) (h : n ≠ "") :
    update_execution s .node_completed [("node_id", n)] =
      (if s.active_node = some n then { s with active_node := none } else s) := by
  simp [update_execution, dictGet, h]

/-- Witness for `c5_node_completed` at `s = ⟨some "n1", ["n1"], none⟩`,
`n = "n1"`. -/
theorem c5_node_completed_witness :
    ("n1" : String) ≠ "" ∧
    update_execution ⟨some "n1", ["n1"], none⟩ .node_completed [("node_id", "n1")] =
      (if (⟨some "n1", ["n1"], none⟩ : DashState).active_node = some "n1" then
        { (⟨some "n1", ["n1"], none⟩ : DashState) with active_node := none }
      else ⟨some "n1", ["n1"], none⟩) :=
  ⟨by decide, c5_node_completed ⟨some "n1", ["n1"], none⟩ "n1" (by decide)⟩

lemma stepSEv_started_active (s : DashState) (n : String) (h : n ≠ "") :
    (stepSEv s (.started n)).active_node = some n := by
  simp [stepSEv, update_execution, dictGet, update_active_node, h]

lemma stepSEv_completed_active (s : DashState) (m : String) (h : m ≠ "") :
    (stepSEv s (.completed m)).active_node =
      if s.active_node = some m then none else s.active_node := by
  simp only [stepSEv, update_execution, dictGet, if_pos rfl]
  rcases eq_or_ne s.active_node (some m) with h' | h' <;> simp [h, h']

lemma lastActiveRevAux_eq (r : List SEv) :
    ∀ seen : List String, (∀ e ∈ r, e.nodeId ≠ "") →
      lastActiveRevAux seen r = maskSeen (applySeq r.reverse).active_node seen := by
  induction r with
  | nil =>
      intro seen _
      simp [lastActiveRevAux, applySeq, initState, maskSeen]
  | cons e rest ih =>
      intro seen hids
      have hid : e.nodeId ≠ "" := hids e (List.mem_cons_self _ _)
      have hrest : ∀ x ∈ rest, x.nodeId ≠ "" := fun x hx =>
        hids x (List.mem_cons_of_mem _ hx)
      have hfold :
          applySeq ((e :: rest).reverse) = stepSEv (applySeq rest.reverse) e := by
        simp [applySeq, List.reverse_cons, List.foldl_append]
      cases e with
      | started n =>
          simp only [SEv.nodeId] at hid
          rw [hfold]
          rw [stepSEv_started_active _ _ hid]
          simp [lastActiveRevAux, maskSeen]
      | completed m =>
          simp only [SEv.nodeId] at hid
          rw [hfold]
          rw [lastActiveRevAux, ih (m :: seen) hrest]
          rw [stepSEv_completed_active _ _ hid]
          rcases ha : (applySeq rest.reverse).active_node with _ | n
          · simp [maskSeen]
          · rcases eq_or_ne n m with h' | h'
            · simp [maskSeen, h']
            · simp [maskSeen, h', List.mem_cons]

/-- C1 counterexample: on the sequence `[started "a", started "b",
completed "b"]`, node `"a"` was started and never completed, so the claim's
latest-unmatched-start rule predicts active node `"a"`; the code instead
clears `active_node` (the `completed "b"` matches the current active node),
ending with `none`. -/
theorem c1_counterexample :
    (applySeq [SEv.started "a", SEv.started "b", SEv.completed "b"]).active_node = none ∧
    c1ClaimActive [SEv.started "a", SEv.started "b", SEv.completed "b"] = some "a" ∧
    (applySeq [SEv.started "a", SEv.started "b", SEv.completed "b"]).active_node ≠
      c1ClaimActive [SEv.started "a", SEv.started "b", SEv.completed "b"] := by
  refine ⟨by decide, by decide, by decide⟩

/-- C1 (amended): for every `NodeStarted`/`NodeCompleted` sequence with
non-empty node ids, the resulting `active_node` is the id of the last
`NodeStarted` of the sequence provided no `NodeCompleted` for that same id
occurs after it, and `none` otherwise (in particular `none` when the sequence
has no `NodeStarted`). -/
theorem c1_active_node_amended (l : List SEv) (h : ∀ e ∈ l, e.nodeId ≠ "") :
    (applySeq l).active_node = c1AmendedActive l := by
  have h' : ∀ e ∈ l.reverse, e.nodeId ≠ "" := by
    intro e he
    exact h e (List.mem_reverse.mp he)
  have := lastActiveRevAux_eq l.reverse [] h'
  rw [List.reverse_reverse] at this
  rw [c1AmendedActive, this]
  rcases (applySeq l).active_node with _ | n <;> simp [maskSeen]

/-- Witness for `c1_active_node_amended` on
`[started "a", started "b", completed "a"]`. -/
theorem c1_active_node_amended_witness :
    (∀ e ∈ [SEv.started "a", SEv.started "b", SEv.completed "a"], e.nodeId ≠ "") ∧
    (applySeq [SEv.started "a", SEv.started "b", SEv.completed "a"]).active_node =
      c1AmendedActive [SEv.started "a", SEv.started "b", SEv.completed "a"] :=
  ⟨by decide, c1_active_node_amended _ (by decide)⟩

/-- C6: an unrecognized event — one with no `type` attribute, a `type`
without `value`, an unknown variant, or a `NodeStarted`/`NodeCompleted`
lacking a (non-empty) node id — leaves the dashboard state unchanged, and the
guarded pipeline is total, so no error is raised. -/
theorem c6_unrecognized_noop (s : DashState) (e : Event)
    (h : isUnrecognized e = true) : handleEventSync s e = s := by
  rcases e with ⟨ty, data⟩
  cases ty with
  | absent => rfl
  | novalue => rfl
  | typed t =>
      cases t with
      | node_started =>
          simp only [isUnrecognized, Bool.not_eq_true'] at h
          simp only [handleEventSync]
          rcases hd : dictGet data "node_id" with _ | v
          · simp [update_execution, hd]
          · rw [hd] at h
            simp only [truthy, bne_eq_false_iff_eq] at h
            simp [update_execution, hd, h]
      | node_completed =>
          simp only [isUnrecognized, Bool.not_eq_true'] at h
          simp only [handleEventSync]
          rcases hd : dictGet data "node_id" with _ | v
          · simp [update_execution, hd]
          · rw [hd] at h
            simp only [truthy, bne_eq_false_iff_eq] at h
            simp [update_execution, hd, h]
      | execution_completed => simp [isUnrecognized] at h
      | execution_failed => simp [isUnrecognized] at h
      | unknown v =>
          simp only [handleEventSync]
          split
          · simp [update_execution]
          · rfl

/-- Witness for `c6_unrecognized_noop`: a `NodeStarted` event carrying no
node id, applied to a mid-execution state. -/
theorem c6_unrecognized_noop_witness :
    isUnrecognized ⟨.typed .node_started, [("other", "x")]⟩ = true ∧
    handleEventSync ⟨some "n1", ["n1"], none⟩ ⟨.typed .node_started, [("other", "x")]⟩ =
      ⟨some "n1", ["n1"], none⟩ :=
  ⟨by decide, c6_unrecognized_noop ⟨some "n1", ["n1"], none⟩ _ (by decide)⟩

lemma handleEventSync_path_nodup (s : DashState) (e : Event)
    (h : s.execution_path.Nodup) : (handleEventSync s e).execution_path.Nodup := by
  rcases e with ⟨ty, data⟩
  cases ty with
  | absent => exact h
  | novalue => exact h
  | typed t =>
      simp only [handleEventSync]
      split
      · cases t with
        | node_started =>
            rcases hd : dictGet data "node_id" with _ | v
            · simpa [update_execution, hd] using h
            · rcases eq_or_ne v "" with hv | hv
              · simpa [update_execution, hd, hv] using h
              · simp only [update_execution, hd, hv, if_neg hv, update_active_node]
                by_cases hmem : v ∈ s.execution_path
                · simpa [hmem] using h
                · simp only [hmem, if_false]
                  exact List.Nodup.append h (List.nodup_singleton v)
                    (by simpa [List.disjoint_singleton] using hmem)
        | node_completed =>
            rcases hd : dictGet data "node_id" with _ | v
            · simpa [update_execution, hd] using h
            · rcases eq_or_ne v "" with hv | hv
              · simpa [update_execution, hd, hv] using h
              · rcases eq_or_ne s.active_node (some v) with ha | ha <;>
                  simpa [update_execution, hd, hv, ha] using h
        | execution_completed => simpa [update_execution] using h
        | execution_failed => simpa [update_execution] using h
        | unknown v => simpa [update_execution] using h
      · exact h

lemma foldl_path_nodup (es : List Event) :
    ∀ s : DashState, s.execution_path.Nodup →
      (es.foldl handleEventSync s).execution_path.Nodup := by
  induction es with
  | nil => intro s h; exact h
  | cons e rest ih =>
      intro s h
      exact ih _ (handleEventSync_path_nodup s e h)

/-- C10: after every sequence of events — of any shape — delivered through
the dashboard pipeline, `execution_path` contains no duplicate node id at
all, consecutive or not: `update_active_node` appends an id only when it is
absent from the entire path. -/
theorem c10_execution_path_nodup (es : List Event) :
    (runEvents es).execution_path.Nodup :=
  foldl_path_nodup es initState (by simp [initState])

lemma pushAll_go (rs : List LogRecord) :
    ∀ q : List LogRecord, (∀ r ∈ rs, 20 ≤ r.levelno) →
      rs.foldl queuePush q = q ++ rs := by
  induction rs with
  | nil => intro q _; simp
  | cons r rest ih =>
      intro q h
      have hr : 20 ≤ r.levelno := h r (List.mem_cons_self _ _)
      have hrest : ∀ x ∈ rest, 20 ≤ x.levelno := fun x hx =>
        h x (List.mem_cons_of_mem _ hx)
      simp only [List.foldl_cons, queuePush, if_pos hr]
      rw [ih (q ++ [r]) hrest]
      simp

/-- C7 counterexample: the queue created by `_setup_logging_queue` is
`queue.Queue()` with no `maxsize`, so no bound `B` can exist — pushing
`B + 1` ordinary INFO records makes `drain_all` return all `B + 1` of them,
refuting the bounded drop-oldest contract for every candidate bound. -/
theorem c7_counterexample : ¬ c7BoundedDropOldestClaim := by
  rintro ⟨B, hB⟩
  have hlen : B < (List.replicate (B + 1) (⟨"app", 20, "msg"⟩ : LogRecord)).length := by
    simp
  have hpush :
      pushAll (List.replicate (B + 1) (⟨"app", 20, "msg"⟩ : LogRecord)) =
        List.replicate (B + 1) (⟨"app", 20, "msg"⟩ : LogRecord) := by
    rw [pushAll, pushAll_go]
    · simp
    · intro r hr
      rw [List.eq_of_mem_replicate hr]
  have hdrain :
      drainAll (List.replicate (B + 1) (⟨"app", 20, "msg"⟩ : LogRecord)) =
        List.replicate (B + 1) (⟨"app", 20, "msg"⟩ : LogRecord) := by
    rw [drainAll, List.filter_eq_self]
    intro a ha
    rw [List.eq_of_mem_replicate ha]
    decide
  have h1 := (hB (List.replicate (B + 1) ⟨"app", 20, "msg"⟩) hlen).1
  rw [hpush, hdrain] at h1
  simp at h1

/-- C7 (amended): the relay's buffer is unbounded — there is no configured
bound and no drop-oldest policy; every record pushed at INFO level or above
that does not match the noisy-prefix filter survives to `drain_all`, however
many records were pushed. -/
theorem c7_unbounded_amended (rs : List LogRecord)
    (h1 : ∀ r ∈ rs, 20 ≤ r.levelno) (h2 : ∀ r ∈ rs, noisy r = false) :
    drainAll (pushAll rs) = rs := by
  rw [pushAll, pushAll_go rs [] h1, List.nil_append, drainAll, List.filter_eq_self]
  intro a ha
  simp [h2 a ha]

/-- Witness for `c7_unbounded_amended` on two ordinary records. -/
theorem c7_unbounded_amended_witness :
    (∀ r ∈ [(⟨"app", 20, "a"⟩ : LogRecord), ⟨"core", 30, "b"⟩], 20 ≤ r.levelno) ∧
    (∀ r ∈ [(⟨"app", 20, "a"⟩ : LogRecord), ⟨"core", 30, "b"⟩], noisy r = false) ∧
    drainAll (pushAll [(⟨"app", 20, "a"⟩ : LogRecord), ⟨"core", 30, "b"⟩]) =
      [(⟨"app", 20, "a"⟩ : LogRecord), ⟨"core", 30, "b"⟩] :=
  ⟨by decide, by decide, c7_unbounded_amended _ (by decide) (by decide)⟩

/-- C9: for records at the handler's INFO level or above, every pushed record
— noisy-named ones included — is enqueued at push time in FIFO order, and
`_poll_logs` drops the noisy-prefixed ones only at drain time, returning the
surviving records in the FIFO order of their push. -/
theorem c9_drain_fifo_filter (rs : List LogRecord)
    (h : ∀ r ∈ rs, 20 ≤ r.levelno) :
    pushAll rs = rs ∧
    drainAll (pushAll rs) = rs.filter (fun r => !noisy r) := by
  have hp : pushAll rs = rs := by
    rw [pushAll, pushAll_go rs [] h, List.nil_append]
  exact ⟨hp, by rw [hp, drainAll]⟩

/-- Witness for `c9_drain_fifo_filter`: a noisy `textual` record is enqueued
at push time and dropped only at drain time. -/
theorem c9_drain_fifo_filter_witness :
    (∀ r ∈ [(⟨"app", 20, "a"⟩ : LogRecord), ⟨"textual.widgets", 20, "b"⟩,
             ⟨"core", 20, "c"⟩], 20 ≤ r.levelno) ∧
    pushAll [(⟨"app", 20, "a"⟩ : LogRecord), ⟨"textual.widgets", 20, "b"⟩,
             ⟨"core", 20, "c"⟩] =
      [(⟨"app", 20, "a"⟩ : LogRecord), ⟨"textual.widgets", 20, "b"⟩, ⟨"core", 20, "c"⟩] ∧
    drainAll (pushAll [(⟨"app", 20, "a"⟩ : LogRecord), ⟨"textual.widgets", 20, "b"⟩,
             ⟨"core", 20, "c"⟩]) =
      List.filter (fun r => !noisy r)
        [(⟨"app", 20, "a"⟩ : LogRecord), ⟨"textual.widgets", 20, "b"⟩, ⟨"core", 20, "c"⟩] := by
  have h := c9_drain_fifo_filter
    [(⟨"app", 20, "a"⟩ : LogRecord), ⟨"textual.widgets", 20, "b"⟩, ⟨"core", 20, "c"⟩]
    (by decide)
  exact ⟨by decide, h.1, h.2⟩

/-- C8 counterexample: starting from a configuration with one pre-existing
stream sink, the start/stop session ends with NO sinks at all — the sink
removed by `_setup_logging_queue` is never restored by `on_unmount`, so the
round-trip fails. -/
theorem c8_counterexample :
    onUnmount (setupLoggingQueue [Handler.stream 0]) = [] ∧
    onUnmount (setupLoggingQueue [Handler.stream 0]) ≠ [Handler.stream 0] := by
  decide

/-- C8 (amended): `start` captures nothing — it unconditionally discards all
previously installed sinks and installs only the queue handler; `stop`
removes only the queue handler, so every session ends with an empty
process-wide sink configuration rather than the prior one. -/
theorem c8_handlers_not_restored (hs : List Handler) :
    onUnmount (setupLoggingQueue hs) = [] := by
  rfl
